import Mathlib

/-!
Verification development for the PDF retrieval-augmented-generation service
(`Backend/main.py` and `Backend/RAG/*.py`).

The Python source is shallowly embedded:
* `chunk_text` (RAG/chunking.py) works on the token list produced by the
  external tokenizer; the `while` loop is modelled with explicit fuel, and
  `none` means the loop has not finished within the given fuel.  Fuel
  `tokens.length + 1` is proved sufficient whenever the stride is positive.
* the FAISS inner-product index is modelled exactly over ℚ: `searchIdx`
  ranks rows by descending inner product (ties broken by row order, as the
  exact brute-force index scans rows in order) and pads with the sentinel
  row `-1` when fewer than `k` rows exist, as `IndexFlat.search` does.
* the HTTP handlers of `main.py` are state-passing functions over a
  `ServerState` record holding the in-memory registry (`documents_store`),
  the saved upload files and the persisted index/metadata files.
* external effects (tokenizer, embedding model, the two LLM back ends,
  PDF extraction) are parameters of the corresponding functions.
-/

/-! ## Chunker (Backend/RAG/chunking.py) -/

/-- Python list slicing `l[a:b]` with possibly negative bounds. -/
def pySlice (l : List ℕ) (a b : ℤ) : List ℕ :=
  (l.take ((if b < 0 then max ((l.length : ℤ) + b) 0 else min b (l.length : ℤ)).toNat)).drop
    ((if a < 0 then max ((l.length : ℤ) + a) 0 else min a (l.length : ℤ)).toNat)

/-- The per-step advance of the chunking loop, `max_chunk_size - overlap_size`
computed in ℤ as Python does (it may be non-positive). -/
def strideZ (maxChunk overlap : ℕ) : ℤ := (maxChunk : ℤ) - (overlap : ℤ)

/-- The `while start < len(tokens)` loop of `chunk_text`, with explicit fuel.
`none` means the loop did not finish within `fuel` iterations. -/
def chunkLoopF (tokens : List ℕ) (maxChunk overlap : ℕ) : ℕ → ℤ → Option (List (List ℕ))
  | 0, _ => none
  | fuel + 1, start =>
    if start < (tokens.length : ℤ) then
      (chunkLoopF tokens maxChunk overlap fuel (start + strideZ maxChunk overlap)).map
        (fun rest =>
          pySlice tokens start (min (start + (maxChunk : ℤ)) (tokens.length : ℤ)) :: rest)
    else some []

/-- `chunk_text` of RAG/chunking.py, on the already-tokenized text.  The fuel
`tokens.length + 1` is proved sufficient whenever `overlap < maxChunk`
(`chunk_text_eq`); when the stride is non-positive the loop never finishes
(`chunkLoopF_stuck`) and the fixed fuel yields `none`. -/
def chunk_text (tokens : List ℕ) (maxChunk : ℕ := 500) (overlap : ℕ := 80) :
    Option (List (List ℕ)) :=
  chunkLoopF tokens maxChunk overlap (tokens.length + 1) 0

/-- Ceiling division on ℕ. -/
def cldiv (m s : ℕ) : ℕ := (m + s - 1) / s

/-- Start position (in tokens) of chunk `j`. -/
def chunkStart (maxChunk overlap j : ℕ) : ℕ := j * (maxChunk - overlap)

/-- End position (exclusive, in tokens) of chunk `j` for a token list of
length `n`. -/
def chunkEnd (n maxChunk overlap j : ℕ) : ℕ :=
  min (chunkStart maxChunk overlap j + maxChunk) n

/-- Number of token positions shared by the windows of chunks `j` and `j+1`. -/
def chunkOverlapAmt (n maxChunk overlap j : ℕ) : ℕ :=
  chunkEnd n maxChunk overlap j - chunkStart maxChunk overlap (j + 1)

/-- The window of the token list starting at position `a`. -/
def windowAt (tokens : List ℕ) (maxChunk a : ℕ) : List ℕ :=
  (tokens.take (min (a + maxChunk) tokens.length)).drop a

/-- Chunk `j` as a slice of the token list. -/
def chunkAt (tokens : List ℕ) (maxChunk overlap j : ℕ) : List ℕ :=
  windowAt tokens maxChunk (chunkStart maxChunk overlap j)

/-- Modelled from the spec: the chunk-count formula claimed in §4.1 of the
specification (`ceil((N - overlapTokens) / (maxTokens - overlapTokens))` for
`N > overlapTokens`, one chunk otherwise), written down only to be compared
with the count the code actually produces. -/
def specChunkCount (n maxChunk overlap : ℕ) : ℕ :=
  if overlap < n then cldiv (n - overlap) (maxChunk - overlap) else 1

/-- An embedding vector, modelled exactly over ℚ. -/
abbrev Vec := List ℚ

/-- Inner product of two vectors. -/
def dot (u v : Vec) : ℚ := (List.zipWith (fun x y => x * y) u v).sum

/-- An embedding back end: model identifier and text to embedding vector.
`embed_texts` of embed_store.py maps it over a batch; queries and chunks go
through this identical code path. -/
abbrev Embedder := String → String → Vec

/-- `embed_texts` of RAG/embed_store.py: one normalized row per input text,
in input order.  (Its empty-model guard is re-checked by every caller before
the call, so it is modelled at the call sites.) -/
def embed_texts (E : Embedder) (texts : List String) (model_name : String) : List Vec :=
  texts.map (E model_name)

/-- The brute-force exact inner-product index `faiss.IndexFlatIP`:
a fixed dimension and the added rows in insertion order. -/
structure FaissIndex where
  d : ℕ
  rows : List Vec
deriving DecidableEq, Repr

/-- Ranking order used by the exact index: higher inner product first,
ties broken by insertion (row) order. -/
def simOrder (a b : ℕ × ℚ) : Prop := b.2 < a.2 ∨ (a.2 = b.2 ∧ a.1 ≤ b.1)

instance simOrder.decRel : DecidableRel simOrder := fun a b => by
  unfold simOrder
  infer_instance

instance simOrder.total : IsTotal (ℕ × ℚ) simOrder := by
  constructor
  intro a b
  rcases lt_trichotomy a.2 b.2 with h | h | h
  · exact Or.inr (Or.inl h)
  · rcases le_total a.1 b.1 with h2 | h2
    · exact Or.inl (Or.inr ⟨h, h2⟩)
    · exact Or.inr (Or.inr ⟨h.symm, h2⟩)
  · exact Or.inl (Or.inl h)

instance simOrder.trans : IsTrans (ℕ × ℚ) simOrder := by
  constructor
  intro a b c hab hbc
  rcases hab with h1 | ⟨h1, h1'⟩
  · rcases hbc with h2 | ⟨h2, _⟩
    · exact Or.inl (h2.trans h1)
    · exact Or.inl (h2 ▸ h1)
  · rcases hbc with h2 | ⟨h2, h2'⟩
    · exact Or.inl (h1 ▸ h2)
    · exact Or.inr ⟨h1.trans h2, h1'.trans h2'⟩

/-- Attach row numbers (starting at `i`) to a list of scores. -/
def idxFrom : ℕ → List ℚ → List (ℕ × ℚ)
  | _, [] => []
  | i, a :: t => (i, a) :: idxFrom (i + 1) t

/-- Each added row paired with its inner product against the query. -/
def scoredRows (rows : List Vec) (q : Vec) : List (ℕ × ℚ) :=
  idxFrom 0 (rows.map (fun v => dot q v))

/-- The row numbers of the `k` best rows, best first: what
`IndexFlat.search` returns in `indices[0]` before sentinel padding. -/
def topRows (rows : List Vec) (q : Vec) (k : ℕ) : List ℕ :=
  ((List.insertionSort simOrder (scoredRows rows q)).take k).map Prod.fst

/-- `index.search(q, k)[1][0]`: the `k` entries of the label row, padded with
the internal sentinel `-1` when fewer than `k` rows are indexed. -/
def searchIdx (index : FaissIndex) (q : Vec) (k : ℕ) : List ℤ :=
  (topRows index.rows q k).map (fun i => Int.ofNat i) ++
    List.replicate (k - (topRows index.rows q k).length) (-1)

/-- A raised Python error: the two kinds the RAG modules raise. -/
inductive PyErr where
  | valueError (msg : String)
  | exception (msg : String)
deriving DecidableEq, Repr

/-- `str(e)` of a raised error. -/
def PyErr.msg : PyErr → String
  | .valueError m => m
  | .exception m => m

instance exceptDecEq {ε α : Type} [DecidableEq ε] [DecidableEq α] :
    DecidableEq (Except ε α) := fun a b =>
  match a, b with
  | .error e1, .error e2 =>
    if h : e1 = e2 then isTrue (by rw [h]) else
      isFalse (by intro hc; injection hc with h2; exact h h2)
  | .error _, .ok _ => isFalse (by intro hc; cases hc)
  | .ok _, .error _ => isFalse (by intro hc; cases hc)
  | .ok v1, .ok v2 =>
    if h : v1 = v2 then isTrue (by rw [h]) else
      isFalse (by intro hc; injection hc with h2; exact h h2)

/-- `retrieve` of RAG/rag_answer.py: embed the query, search the index, drop
the sentinel `-1` labels, and map each remaining row number to the chunk at
that position. -/
def retrieve (E : Embedder) (query : String) (index : FaissIndex) (chunks : List String)
    (top_k : ℕ) (embedding_model : String) : Except PyErr (List String) :=
  if embedding_model = "" then
    .error (.valueError "Embedding model is required for retrieval")
  else
    match ((searchIdx index (E embedding_model query) top_k).filter
        (fun i => decide (i ≠ -1))).mapM (fun i => chunks.get? i.toNat) with
    | some l => .ok l
    | none => .error (.exception "list index out of range")

/-- Split a flat list back into rows of `d` entries. -/
def unflatten (d : ℕ) (l : List ℚ) : List (List ℚ) :=
  if h : d = 0 ∨ l = [] then [] else l.take d :: unflatten d (l.drop d)
termination_by l.length
decreasing_by
  push_neg at h
  have := List.length_pos.mpr h.2
  simp only [List.length_drop]
  omega

/-- Modelled from the spec: `faiss.write_index` serializes the index to a
file (library code, not part of this repository); the durable content is the
dimension and the row-major vector data. -/
def persistIndex (index : FaissIndex) : ℕ × List ℚ := (index.d, index.rows.flatten)

/-- Modelled from the spec: `faiss.read_index` rebuilds the index from the
persisted blob (library code, not part of this repository). -/
def loadIndex (blob : ℕ × List ℚ) : FaissIndex := ⟨blob.1, unflatten blob.1 blob.2⟩

/-- Does `sub` occur at the head of `l`? -/
def startsWithL : List Char → List Char → Bool
  | [], _ => true
  | _ :: _, [] => false
  | a :: as, b :: bs => a == b && startsWithL as bs

/-- Does `sub` occur anywhere in `l`? -/
def hasSegL (sub : List Char) : List Char → Bool
  | [] => startsWithL sub []
  | c :: t => startsWithL sub (c :: t) || hasSegL sub t

/-- Python `sub in s` on strings. -/
def containsStr (s sub : String) : Bool := hasSegL sub.data s.data

/-- Python `s.lower()` (character-wise lowering). -/
def pyLower (s : String) : String := String.mk (s.data.map Char.toLower)

/-- Python `s.strip()`: drop leading and trailing whitespace. -/
def pyStrip (s : String) : String :=
  String.mk (((s.data.dropWhile Char.isWhitespace).reverse.dropWhile
    Char.isWhitespace).reverse)

/-- Python `s.endswith(suf)`. -/
def pyEndsWith (s suf : String) : Bool := startsWithL suf.data.reverse s.data.reverse

/-- A remote chat-completion back end: system prompt, user prompt, model id
and API key to either a completion or a raised error message.  One such
capability per provider (`_generate_huggingface`, `_generate_openai`). -/
abbrev LlmCall := String → String → String → String → Except String String

/-- The fixed system prompt of `generate_answer`. -/
def system_prompt : String :=
  "You are a helpful assistant. Answer concisely using only the provided context."

/-- The user prompt of `generate_answer`: joined context plus the question. -/
def user_prompt (query : String) (ctx : List String) : String :=
  "Context: " ++ String.intercalate "\n" ctx ++ "\n\nQuestion: " ++ query ++ "\n\nAnswer:"

/-- The `except Exception` reclassification in `generate_answer`: inspect the
lowered failure text for "rate limit", then "model", else wrap generically. -/
def classifyGenError (e : String) : PyErr :=
  if containsStr (pyLower e) "rate limit" then
    .exception "Rate limit exceeded. Try again later."
  else if containsStr (pyLower e) "model" then
    .exception ("Model error: " ++ e)
  else
    .exception ("Failed to generate answer: " ++ e)

/-- `generate_answer` of RAG/rag_answer.py. -/
def generate_answer (callHF callOA : LlmCall) (query : String) (ctx : List String)
    (provider llm_model api_key : String) : Except PyErr String :=
  if ¬ (provider = "huggingface" ∨ provider = "openai") then
    .error (.valueError "Provider must be 'huggingface' or 'openai'")
  else if llm_model = "" then
    .error (.valueError "LLM model name is required")
  else if api_key = "" then
    .error (.valueError "API key is required")
  else
    match (if provider = "openai" then
        callOA system_prompt (user_prompt query ctx) llm_model api_key
      else
        callHF system_prompt (user_prompt query ctx) llm_model api_key) with
    | .ok answer => .ok answer
    | .error e => .error (classifyGenError e)

/-! ## DocumentLifecycleManager (Backend/main.py) -/

/-- A path in `uploads/` or `indexes/`: the saved PDF, the index file
`{id}.index`, or the metadata file `{id}_meta.json` of a document.  The three
shapes never collide as strings (distinct directory or extension), so the
string paths of main.py are modelled by this key type. -/
inductive FPath where
  | upload (id : String)
  | index (id : String)
  | meta (id : String)
deriving DecidableEq, Repr

/-- Lookup in an association list (a Python dict / a directory listing). -/
def aLookup {κ β : Type} [DecidableEq κ] : List (κ × β) → κ → Option β
  | [], _ => none
  | (k, v) :: t, k' => if k = k' then some v else aLookup t k'

/-- Remove a key (a `del` / `os.remove`; no-op when the key is absent). -/
def aErase {κ β : Type} [DecidableEq κ] (k : κ) (l : List (κ × β)) : List (κ × β) :=
  l.filter (fun p => decide (p.1 ≠ k))

/-- Overwriting insertion (a Python dict assignment / a file write). -/
def aInsert {κ β : Type} [DecidableEq κ] (k : κ) (v : β) (l : List (κ × β)) :
    List (κ × β) :=
  (k, v) :: aErase k l

/-- The JSON metadata record `{"chunks": ..., "embedding_model": ...}`;
`metadata.get` may find either field missing. -/
structure Meta where
  chunks : Option (List String)
  embedding_model : Option String
deriving DecidableEq, Repr

/-- A value of `documents_store`.  Entries written by `upload_pdf` populate
every field; entries written by the chat reload populate only `chunks`,
`index` and `embedding_model` (the `Option` fields stay `none`, as the
reloaded dict simply lacks those keys). -/
structure DocEntry where
  filename : Option String
  file_path : Option FPath
  index_path : Option FPath
  meta_path : Option FPath
  chunks : List String
  index : FaissIndex
  embedding_model : String
deriving DecidableEq, Repr

/-- The mutable state of main.py: the in-memory registry plus the two
directories on disk. -/
structure ServerState where
  documents_store : List (String × DocEntry)
  uploads : List FPath
  disk_index : List (FPath × FaissIndex)
  disk_meta : List (FPath × Meta)
deriving DecidableEq, Repr

/-- A raised `HTTPException(status_code, detail)`. -/
structure HTTPException where
  status : ℕ
  detail : String
deriving DecidableEq, Repr

structure UploadResponse where
  document_id : String
  filename : String
  num_chunks : ℕ
  embedding_model : String
  message : String
deriving DecidableEq, Repr

structure ChatRequest where
  document_id : String
  query : String
  top_k : ℕ
  provider : String
  llm_model : String
  api_key : String
deriving DecidableEq, Repr

structure ChatResponse where
  answer : String
  sources : List String
  model_used : String
  provider : String
deriving DecidableEq, Repr

/-- The external tokenizer `encoding.encode` of tiktoken. -/
abbrev Tokenizer := String → List ℕ

/-- The external detokenizer `encoding.decode` of tiktoken. -/
abbrev Detokenizer := List ℕ → String

/-- `chunk_text(text)` as called by `upload_pdf`, with the default window
parameters; the loop fuel is sufficient because the default stride
`500 - 80` is positive. -/
def chunkTextStr (enc : Tokenizer) (dec : Detokenizer) (text : String) : List String :=
  ((chunk_text (enc text) 500 80).getD []).map dec

/-- A failure raised inside the persist phase of `upload_pdf`, distinguished
by how far the phase got before raising.  `embed`: raised by
`embed_texts` / `IndexFlatIP` / `index.add` (or by `faiss.write_index`
before it produced a readable file), so no readable artifact reaches
`indexes/`.  `writeMeta`: raised by the metadata `json.dump` after
`faiss.write_index` already wrote the index file, so the index artifact is
on disk; the truncating `open(meta_path, 'w')` leaves no readable metadata
record at `meta_path` (modelled as that record's absence — partial
byte-level file contents are outside this file model). -/
inductive UploadFail where
  | embed (msg : String)
  | writeMeta (msg : String)
deriving DecidableEq, Repr

/-- `upload_pdf` of main.py.  `extractResult` is the outcome of the external
`extract_text_from_pdf` call (a raised error lands in the generic
`except Exception` branch); `persistFail`, when set, is an error raised
inside the embed/index/persist phase, tagged with how far the phase got
(see `UploadFail`); the generic `except Exception` handler removes only the
saved PDF, so artifacts already written by the phase stay on disk.  The
function returns the state after the request together with the response or
raised error. -/
def upload_pdf (E : Embedder) (enc : Tokenizer) (dec : Detokenizer) (st : ServerState)
    (document_id : String) (filename : String) (extractResult : Except String String)
    (embedding_model : String) (persistFail : Option UploadFail) :
    ServerState × Except HTTPException UploadResponse :=
  if ¬ (pyEndsWith (pyLower filename) ".pdf") then
    (st, .error ⟨400, "Only PDF files are allowed"⟩)
  else if pyStrip embedding_model = "" then
    (st, .error ⟨400, "Embedding model is required"⟩)
  else
    let embed_model := pyStrip embedding_model
    let file_path := FPath.upload document_id
    let st1 : ServerState := { st with uploads := file_path :: st.uploads }
    match extractResult with
    | .error e =>
      ({ st1 with uploads := st1.uploads.erase file_path },
        .error ⟨500, "Failed to process PDF: " ++ e⟩)
    | .ok text =>
      if pyStrip text = "" then
        (st1, .error ⟨400, "Could not extract text from PDF"⟩)
      else
        let chunks := chunkTextStr enc dec text
        if chunks = [] then
          (st1, .error ⟨400, "Could not create chunks from PDF"⟩)
        else
          let vectors := embed_texts E chunks embed_model
          let index : FaissIndex := ⟨(vectors.headI).length, vectors⟩
          match persistFail with
          | some (.embed e) =>
            ({ st1 with uploads := st1.uploads.erase file_path },
              .error ⟨500, "Failed to process PDF: " ++ e⟩)
          | some (.writeMeta e) =>
            ({ st1 with
                uploads := st1.uploads.erase file_path,
                disk_index := aInsert (FPath.index document_id) index st1.disk_index,
                disk_meta := aErase (FPath.meta document_id) st1.disk_meta },
              .error ⟨500, "Failed to process PDF: " ++ e⟩)
          | none =>
            let entry : DocEntry :=
              ⟨some filename, some file_path, some (FPath.index document_id),
                some (FPath.meta document_id), chunks, index, embed_model⟩
            ({ st1 with
                disk_index := aInsert (FPath.index document_id) index st1.disk_index,
                disk_meta := aInsert (FPath.meta document_id)
                  ⟨some chunks, some embed_model⟩ st1.disk_meta,
                documents_store := aInsert document_id entry st1.documents_store },
              .ok ⟨document_id, filename, chunks.length, embed_model,
                "Document uploaded and indexed successfully"⟩)

/-- The reload block of `chat`: return the in-memory entry, or rebuild one
from the persisted index and metadata files, or fail. -/
def loadStep (st : ServerState) (id : String) :
    Except HTTPException (ServerState × DocEntry) :=
  match aLookup st.documents_store id with
  | some doc => .ok (st, doc)
  | none =>
    match aLookup st.disk_index (FPath.index id), aLookup st.disk_meta (FPath.meta id) with
    | some index, some metadata =>
      match metadata.embedding_model with
      | none => .error ⟨500, "Document missing embedding_model. Re-upload required."⟩
      | some m =>
        if m = "" then
          .error ⟨500, "Document missing embedding_model. Re-upload required."⟩
        else
          .ok ({ st with documents_store :=
              (aInsert id ⟨none, none, none, none, metadata.chunks.getD [], index, m⟩
                st.documents_store) },
            ⟨none, none, none, none, metadata.chunks.getD [], index, m⟩)
    | _, _ => .error ⟨404, "Document not found"⟩

/-- `chat` of main.py. -/
def chat (E : Embedder) (callHF callOA : LlmCall) (st : ServerState) (req : ChatRequest) :
    ServerState × Except HTTPException ChatResponse :=
  if pyStrip req.query = "" then
    (st, .error ⟨400, "Query cannot be empty"⟩)
  else if ¬ (req.provider = "huggingface" ∨ req.provider = "openai") then
    (st, .error ⟨400, "Provider must be 'huggingface' or 'openai'"⟩)
  else if pyStrip req.llm_model = "" then
    (st, .error ⟨400, "LLM model is required"⟩)
  else if pyStrip req.api_key = "" then
    (st, .error ⟨400, "API key is required"⟩)
  else
    match loadStep st req.document_id with
    | .error err => (st, .error err)
    | .ok (st', doc) =>
      match retrieve E req.query doc.index doc.chunks req.top_k doc.embedding_model with
      | .error e => (st', .error ⟨500, "Failed to generate response: " ++ e.msg⟩)
      | .ok relevant_chunks =>
        if relevant_chunks = [] then
          (st', .error ⟨404, "No relevant content found"⟩)
        else
          match generate_answer callHF callOA req.query relevant_chunks req.provider
              req.llm_model req.api_key with
          | .error e => (st', .error ⟨500, "Failed to generate response: " ++ e.msg⟩)
          | .ok answer => (st', .ok ⟨answer, relevant_chunks, req.llm_model, req.provider⟩)

/-- `list_documents` of main.py: a read-only projection of the registry. -/
def list_documents (st : ServerState) :
    ServerState × List (String × String × ℕ × String) :=
  (st, st.documents_store.map (fun p =>
    (p.1, p.2.filename.getD "Unknown", p.2.chunks.length, p.2.embedding_model)))

/-- `os.remove(path)`: the file disappears from whichever directory held it. -/
def removeFile (st : ServerState) (p : FPath) : ServerState :=
  { st with
    uploads := st.uploads.erase p,
    disk_index := aErase p st.disk_index,
    disk_meta := aErase p st.disk_meta }

/-- `delete_document` of main.py: remove each of the three recorded paths
that is present (existence-checked), then drop the registry entry. -/
def delete_document (st : ServerState) (document_id : String) :
    ServerState × Except HTTPException String :=
  match aLookup st.documents_store document_id with
  | none => (st, .error ⟨404, "Document not found"⟩)
  | some doc =>
    let st1 := match doc.file_path with
      | some p => removeFile st p
      | none => st
    let st2 := match doc.index_path with
      | some p => removeFile st1 p
      | none => st1
    let st3 := match doc.meta_path with
      | some p => removeFile st2 p
      | none => st2
    ({ st3 with documents_store := aErase document_id st3.documents_store },
      .ok "Document deleted")

/-- An in-memory entry is aligned when row `i` of its index is exactly the
embedding (under the entry's recorded model) of chunk `i`. -/
def entryAligned (E : Embedder) (e : DocEntry) : Prop :=
  e.index.rows = e.chunks.map (E e.embedding_model)

/-- The persisted artifacts are aligned when, for every document whose index
and metadata files both exist, the metadata records the chunk list and model
id, and row `i` of the persisted index is the embedding of metadata chunk
`i`. -/
def diskAligned (E : Embedder) (st : ServerState) : Prop :=
  ∀ id index meta, aLookup st.disk_index (FPath.index id) = some index →
    aLookup st.disk_meta (FPath.meta id) = some meta →
    ∃ cs m, meta.chunks = some cs ∧ meta.embedding_model = some m ∧
      index.rows = cs.map (E m)

/-- The central invariant: every in-memory entry and every persisted pair of
artifacts keeps chunk `i` in correspondence with vector-index row `i`. -/
def stateAligned (E : Embedder) (st : ServerState) : Prop :=
  (∀ id e, aLookup st.documents_store id = some e → entryAligned E e) ∧ diskAligned E st

/-! ## Theorems -/

theorem cldiv_pos_step {m s : ℕ} (hs : 0 < s) (hm : 0 < m) :
    cldiv m s = cldiv (m - s) s + 1 := by
  unfold cldiv
  rcases le_or_lt m s with h | h
  · have h1 : m - s = 0 := by omega
    rw [h1]
    have h2 : (0 + s - 1) / s = 0 := Nat.div_eq_of_lt (by omega)
    rw [h2]
    exact Nat.div_eq_of_lt_le (by omega) (by omega)
  · have h1 : m + s - 1 = (m - s + s - 1) + s := by omega
    rw [h1, Nat.add_div_right _ hs]

theorem pySlice_of_nonneg (l : List ℕ) (a b : ℕ) :
    pySlice l (a : ℤ) (b : ℤ) = (l.take (min b l.length)).drop (min a l.length) := by
  unfold pySlice
  have ha : ¬ ((a : ℤ) < 0) := by omega
  have hb : ¬ ((b : ℤ) < 0) := by omega
  rw [if_neg ha, if_neg hb]
  have h1 : (min (b : ℤ) (l.length : ℤ)).toNat = min b l.length := by omega
  have h2 : (min (a : ℤ) (l.length : ℤ)).toNat = min a l.length := by omega
  rw [h1, h2]

/-- Characterization of the chunking loop when the stride is positive:
starting at `start`, it terminates with exactly `cldiv (n - start) s`
further chunks, window `j` starting at `start + j*s`. -/
theorem chunkLoopF_spec (tokens : List ℕ) (maxChunk overlap : ℕ)
    (hmo : overlap < maxChunk) :
    ∀ fuel start : ℕ, tokens.length - start < fuel →
      chunkLoopF tokens maxChunk overlap fuel (start : ℤ) =
        some ((List.range (cldiv (tokens.length - start) (maxChunk - overlap))).map
          (fun j => windowAt tokens maxChunk (start + j * (maxChunk - overlap)))) := by
  intro fuel
  induction fuel with
  | zero => intro start h; omega
  | succ fuel ih =>
    intro start h
    set n := tokens.length with hn
    set s := maxChunk - overlap with hs
    have hs1 : 0 < s := by omega
    by_cases hlt : start < n
    · have hcond : (start : ℤ) < (n : ℤ) := by exact_mod_cast hlt
      have hstep : (start : ℤ) + strideZ maxChunk overlap = ((start + s : ℕ) : ℤ) := by
        unfold strideZ; push_cast; omega
      rw [chunkLoopF]
      rw [if_pos hcond, hstep, ih (start + s) (by omega)]
      have hcount : cldiv (n - start) s = cldiv (n - (start + s)) s + 1 := by
        have h0 := cldiv_pos_step (m := n - start) hs1 (by omega)
        have h2 : n - start - s = n - (start + s) := by omega
        rw [h2] at h0
        exact h0
      rw [hcount, List.range_succ_eq_map, List.map_cons, List.map_map]
      simp only [Option.map_some']
      congr 1
      congr 1
      · have hmin : min ((start : ℤ) + (maxChunk : ℤ)) ((n : ℤ)) =
            (((min (start + maxChunk) n : ℕ)) : ℤ) := by push_cast; omega
        rw [hmin]
        have hps := pySlice_of_nonneg tokens start (min (start + maxChunk) n)
        rw [hn] at hps
        rw [hps]
        unfold windowAt
        have h1 : min (min (start + maxChunk) n) n = min (start + maxChunk) n := by omega
        have h2 : min start n = start := by omega
        have h3 : start + 0 * s = start := by ring
        rw [← hn, h1, h2, h3]
      · apply List.map_congr_left
        intro j _
        simp only [Function.comp]
        have harith : start + s + j * s = start + (j + 1) * s := by ring
        rw [harith]
    · rw [chunkLoopF]
      have hcond : ¬ ((start : ℤ) < (n : ℤ)) := by
        push_neg
        exact_mod_cast Nat.le_of_not_lt hlt
      rw [if_neg hcond]
      have h0 : n - start = 0 := by omega
      rw [h0]
      have h1 : cldiv 0 s = 0 := by
        unfold cldiv
        exact Nat.div_eq_of_lt (by omega)
      rw [h1]
      simp

theorem chunk_text_eq (tokens : List ℕ) (maxChunk overlap : ℕ)
    (hmo : overlap < maxChunk) :
    chunk_text tokens maxChunk overlap =
      some ((List.range (cldiv tokens.length (maxChunk - overlap))).map
        (fun j => chunkAt tokens maxChunk overlap j)) := by
  unfold chunk_text
  have h := chunkLoopF_spec tokens maxChunk overlap hmo (tokens.length + 1) 0 (by omega)
  have h0 : (((0 : ℕ)) : ℤ) = (0 : ℤ) := by norm_num
  rw [h0] at h
  rw [h]
  have h2 : tokens.length - 0 = tokens.length := by omega
  rw [h2]
  congr 1
  apply List.map_congr_left
  intro j _
  unfold chunkAt chunkStart windowAt
  have h1 : 0 + j * (maxChunk - overlap) = j * (maxChunk - overlap) := by ring
  rw [h1]

/-- When the stride is non-positive (`maxChunk ≤ overlap`) and at least one
token exists, the chunking loop never finishes, for any amount of fuel:
`start` never increases, so `start < len(tokens)` holds forever. -/
theorem chunkLoopF_stuck (tokens : List ℕ) (maxChunk overlap : ℕ)
    (hmo : maxChunk ≤ overlap) (hne : tokens ≠ []) :
    ∀ fuel : ℕ, ∀ start : ℤ, start ≤ 0 →
      chunkLoopF tokens maxChunk overlap fuel start = none := by
  intro fuel
  induction fuel with
  | zero => intro start _; rfl
  | succ fuel ih =>
    intro start hstart
    have hlen : 0 < tokens.length := List.length_pos.mpr hne
    have hcond : start < (tokens.length : ℤ) := by
      have : (0 : ℤ) < (tokens.length : ℤ) := by exact_mod_cast hlen
      omega
    rw [chunkLoopF, if_pos hcond]
    have hstep : start + strideZ maxChunk overlap ≤ 0 := by
      unfold strideZ; omega
    rw [ih _ hstep]
    rfl

theorem length_chunkAt (tokens : List ℕ) (maxChunk overlap j : ℕ) :
    (chunkAt tokens maxChunk overlap j).length =
      chunkEnd tokens.length maxChunk overlap j - chunkStart maxChunk overlap j := by
  unfold chunkAt windowAt chunkEnd
  simp [List.length_drop, List.length_take]

/-- If chunk `j+1` exists (its start is before the end of the tokens), the
tail of chunk `j` from position `stride` on equals the first
`chunkOverlapAmt` tokens of chunk `j+1`: consecutive chunks share exactly
that window of the token list. -/
theorem chunk_consecutive_overlap (tokens : List ℕ) (maxChunk overlap j : ℕ)
    (hmo : overlap < maxChunk)
    (hnext : chunkStart maxChunk overlap (j + 1) < tokens.length) :
    (chunkAt tokens maxChunk overlap j).drop (maxChunk - overlap) =
      (chunkAt tokens maxChunk overlap (j + 1)).take
        (chunkOverlapAmt tokens.length maxChunk overlap j) := by
  unfold chunkStart at hnext
  unfold chunkAt windowAt chunkOverlapAmt chunkEnd chunkStart
  set n := tokens.length with hn
  set s := maxChunk - overlap with hs
  set a := j * s with ha
  have hanext : (j + 1) * s = a + s := by rw [ha]; ring
  rw [hanext] at hnext ⊢
  rw [List.drop_drop]
  rw [List.take_drop]
  rw [List.take_take]
  have h1 : min ((a + s) + (min (a + maxChunk) n - (a + s))) (min (a + s + maxChunk) n) =
      min (a + maxChunk) n := by omega
  rw [h1]

theorem chunkOverlapAmt_eq (n maxChunk overlap j : ℕ) (hmo : overlap < maxChunk)
    (hnext : chunkStart maxChunk overlap (j + 1) < n) :
    chunkOverlapAmt n maxChunk overlap j =
      min overlap (n - chunkStart maxChunk overlap (j + 1)) := by
  unfold chunkOverlapAmt chunkEnd chunkStart at *
  have h : (j + 1) * (maxChunk - overlap) = j * (maxChunk - overlap) + (maxChunk - overlap) := by
    ring
  rw [h] at hnext ⊢
  omega

theorem chunkOverlapAmt_full (n maxChunk overlap j : ℕ) (hmo : overlap < maxChunk)
    (hfull : chunkStart maxChunk overlap j + maxChunk ≤ n) :
    chunkOverlapAmt n maxChunk overlap j = overlap := by
  unfold chunkOverlapAmt chunkEnd chunkStart at *
  have h : (j + 1) * (maxChunk - overlap) = j * (maxChunk - overlap) + (maxChunk - overlap) := by
    ring
  rw [h]
  omega

theorem chunkStart_lt_of_lt_count (n maxChunk overlap j : ℕ) (hmo : overlap < maxChunk)
    (hj : j < cldiv n (maxChunk - overlap)) :
    chunkStart maxChunk overlap j < n := by
  unfold chunkStart
  unfold cldiv at hj
  set s := maxChunk - overlap with hs
  have hs1 : 0 < s := by omega
  by_contra hge
  push_neg at hge
  have h1 : j + 1 ≤ (n + s - 1) / s := hj
  have h2 : (j + 1) * s ≤ n + s - 1 := (Nat.le_div_iff_mul_le hs1).mp h1
  have h3 : j * s + s ≤ n + s - 1 := by
    have : (j + 1) * s = j * s + s := by ring
    omega
  omega

/-! ## Embeddings and the FAISS index
(Backend/RAG/embed_store.py, FAISS `IndexFlatIP`) -/

theorem idxFrom_length (l : List ℚ) : ∀ i, (idxFrom i l).length = l.length := by
  induction l with
  | nil => intro i; rfl
  | cons a t ih => intro i; simp [idxFrom, ih]

theorem mem_idxFrom (l : List ℚ) :
    ∀ i p, p ∈ idxFrom i l → ∃ j, j < l.length ∧ p = (i + j, l.getD j 0) := by
  induction l with
  | nil => intro i p h; simp [idxFrom] at h
  | cons a t ih =>
    intro i p h
    rw [idxFrom, List.mem_cons] at h
    rcases h with h | h
    · exact ⟨0, by simp, by simpa using h⟩
    · obtain ⟨j, hj, hp⟩ := ih (i + 1) p h
      exact ⟨j + 1, by simpa using hj, by rw [hp]; simp; omega⟩

theorem mem_scoredRows (rows : List Vec) (q : Vec) (p : ℕ × ℚ)
    (h : p ∈ scoredRows rows q) :
    p.1 < rows.length ∧ p.2 = dot q (rows.getD p.1 []) := by
  obtain ⟨j, hj, hp⟩ := mem_idxFrom _ 0 p h
  rw [List.length_map] at hj
  have h1 : ((rows.map (fun v => dot q v)).getD j 0) = dot q (rows.getD j []) := by
    rw [List.getD_eq_getElem?_getD, List.getD_eq_getElem?_getD, List.getElem?_map,
      List.getElem?_eq_getElem hj]
    simp
  rw [hp]
  simp [h1, hj]

theorem length_topRows (rows : List Vec) (q : Vec) (k : ℕ) :
    (topRows rows q k).length = min k rows.length := by
  unfold topRows
  rw [List.length_map, List.length_take,
    (List.perm_insertionSort simOrder (scoredRows rows q)).length_eq]
  unfold scoredRows
  rw [idxFrom_length, List.length_map]

theorem mem_topRows (rows : List Vec) (q : Vec) (k : ℕ) (i : ℕ)
    (h : i ∈ topRows rows q k) : i < rows.length := by
  unfold topRows at h
  obtain ⟨p, hp, hfst⟩ := List.mem_map.mp h
  have hmem : p ∈ List.insertionSort simOrder (scoredRows rows q) :=
    (List.take_sublist _ _).subset hp
  have hmem2 : p ∈ scoredRows rows q :=
    (List.perm_insertionSort simOrder _).subset hmem
  have := mem_scoredRows rows q p hmem2
  omega

/-- The scores of the returned rows are non-increasing along the output. -/
theorem topRows_sorted (rows : List Vec) (q : Vec) (k : ℕ) :
    List.Pairwise (fun i j => dot q (rows.getD j []) ≤ dot q (rows.getD i []))
      (topRows rows q k) := by
  unfold topRows
  rw [List.pairwise_map]
  have hsorted : List.Pairwise simOrder
      ((List.insertionSort simOrder (scoredRows rows q)).take k) :=
    List.Pairwise.sublist (List.take_sublist _ _) (List.sorted_insertionSort simOrder _)
  apply List.Pairwise.imp_of_mem _ hsorted
  intro a b ha hb hab
  have ha2 : a ∈ scoredRows rows q :=
    (List.perm_insertionSort simOrder _).subset ((List.take_sublist _ _).subset ha)
  have hb2 : b ∈ scoredRows rows q :=
    (List.perm_insertionSort simOrder _).subset ((List.take_sublist _ _).subset hb)
  have hae := (mem_scoredRows rows q a ha2).2
  have hbe := (mem_scoredRows rows q b hb2).2
  rw [← hae, ← hbe]
  rcases hab with h | ⟨h, _⟩
  · exact le_of_lt h
  · exact le_of_eq h.symm

/-! ## Retriever (Backend/RAG/rag_answer.py, `retrieve`) -/

theorem filter_searchIdx (index : FaissIndex) (q : Vec) (k : ℕ) :
    (searchIdx index q k).filter (fun i => decide (i ≠ -1)) =
      (topRows index.rows q k).map (fun i => Int.ofNat i) := by
  unfold searchIdx
  rw [List.filter_append]
  have h1 : ∀ t : List ℕ,
      (t.map (fun i => Int.ofNat i)).filter (fun i => decide (i ≠ -1)) =
        t.map (fun i => Int.ofNat i) := by
    intro t
    induction t with
    | nil => rfl
    | cons a t ih =>
      rw [List.map_cons, List.filter_cons]
      have hne : Int.ofNat a ≠ -1 := by
        show (a : ℤ) ≠ -1
        omega
      simp [hne, ih]
  have h2 : (List.replicate (k - (topRows index.rows q k).length) (-1 : ℤ)).filter
      (fun i => decide (i ≠ -1)) = [] := by
    rw [List.filter_replicate]
    simp
  rw [h1, h2, List.append_nil]

theorem mapM_get?_of_lt (chunks : List String) :
    ∀ t : List ℕ, (∀ i ∈ t, i < chunks.length) →
      (t.map (fun i => Int.ofNat i)).mapM (fun i => chunks.get? i.toNat) =
        some (t.map (fun i => chunks.getD i "")) := by
  intro t
  induction t with
  | nil => intro _; rfl
  | cons a t ih =>
    intro h
    have ha : a < chunks.length := h a (List.mem_cons_self a t)
    rw [List.map_cons, List.map_cons, List.mapM_cons]
    have h1 : (Int.ofNat a).toNat = a := rfl
    have h2 : chunks.get? a = some (chunks.getD a "") := by
      rw [List.get?_eq_getElem?, List.getD_eq_getElem?_getD, List.getElem?_eq_getElem ha]
      rfl
    rw [h1, h2, ih (fun i hi => h i (List.mem_cons_of_mem a hi))]
    rfl

/-- Shared characterization of a successful retrieval: when the chunk list
covers every row of the index, `retrieve` returns exactly the chunks at the
returned row positions, in rank order. -/
theorem retrieve_ok (E : Embedder) (query : String) (index : FaissIndex)
    (chunks : List String) (top_k : ℕ) (m : String) (hm : m ≠ "")
    (hlen : index.rows.length ≤ chunks.length) :
    retrieve E query index chunks top_k m =
      .ok ((topRows index.rows (E m query) top_k).map (fun i => chunks.getD i "")) := by
  unfold retrieve
  rw [if_neg hm, filter_searchIdx]
  rw [mapM_get?_of_lt chunks _ (fun i hi => lt_of_lt_of_le (mem_topRows _ _ _ _ hi) hlen)]

/-! ## Index persistence
(`faiss.write_index` / `faiss.read_index`, used by main.py) -/

theorem unflatten_flatten (d : ℕ) (hd : 0 < d) :
    ∀ rows : List Vec, (∀ r ∈ rows, r.length = d) → unflatten d rows.flatten = rows := by
  intro rows
  induction rows with
  | nil =>
    intro _
    rw [List.flatten_nil, unflatten]
    simp
  | cons r rs ih =>
    intro h
    have hr : r.length = d := h r (List.mem_cons_self r rs)
    have hrne : r ++ rs.flatten ≠ [] := by
      intro hc
      have : r = [] := by
        cases r with
        | nil => rfl
        | cons a t => simp at hc
      rw [this] at hr
      simp at hr
      omega
    rw [List.flatten_cons, unflatten]
    have hcond : ¬ (d = 0 ∨ r ++ rs.flatten = []) := by
      push_neg
      exact ⟨by omega, hrne⟩
    rw [dif_neg hcond]
    rw [List.take_left' hr, List.drop_left' hr]
    rw [ih (fun x hx => h x (List.mem_cons_of_mem r hx))]

/-! ## AnswerGenerator (Backend/RAG/rag_answer.py, `generate_answer`) -/

theorem aLookup_aErase {κ β : Type} [DecidableEq κ] (k k' : κ) (l : List (κ × β)) :
    aLookup (aErase k l) k' = if k = k' then none else aLookup l k' := by
  induction l with
  | nil =>
    simp [aErase, aLookup]
  | cons p t ih =>
    obtain ⟨a, b⟩ := p
    by_cases hak : a = k
    · subst hak
      have h1 : aErase a ((a, b) :: t) = aErase a t := by
        simp [aErase]
      rw [h1, ih]
      by_cases hkk : a = k'
      · simp [hkk]
      · simp [hkk, aLookup, fun h => hkk h]
    · have h1 : aErase k ((a, b) :: t) = (a, b) :: aErase k t := by
        simp [aErase, hak]
      rw [h1]
      by_cases hak' : a = k'
      · subst hak'
        have hkk : ¬ (k = a) := fun h => hak h.symm
        simp [aLookup, hkk]
      · simp [aLookup, hak', ih]

theorem aLookup_aInsert {κ β : Type} [DecidableEq κ] (k k' : κ) (v : β) (l : List (κ × β)) :
    aLookup (aInsert k v l) k' = if k = k' then some v else aLookup l k' := by
  unfold aInsert
  by_cases hkk : k = k'
  · simp [aLookup, hkk]
  · simp [aLookup, hkk, aLookup_aErase]

theorem aLookup_aErase_some {κ β : Type} [DecidableEq κ] {k k' : κ} {l : List (κ × β)}
    {v : β} (h : aLookup (aErase k l) k' = some v) : aLookup l k' = some v := by
  rw [aLookup_aErase] at h
  by_cases hkk : k = k'
  · rw [if_pos hkk] at h
    cases h
  · rwa [if_neg hkk] at h

/-! ## The chunk-to-row alignment invariant -/

theorem stateAligned_removeFile (E : Embedder) (st : ServerState) (p : FPath)
    (h : stateAligned E st) : stateAligned E (removeFile st p) := by
  constructor
  · exact h.1
  · intro id index meta hi hm
    unfold removeFile at hi hm
    exact h.2 id index meta (aLookup_aErase_some hi) (aLookup_aErase_some hm)

theorem stateAligned_eraseStore (E : Embedder) (st : ServerState) (id : String)
    (h : stateAligned E st) :
    stateAligned E { st with documents_store := aErase id st.documents_store } := by
  constructor
  · intro id' e he
    exact h.1 id' e (aLookup_aErase_some he)
  · exact h.2

theorem stateAligned_upload (E : Embedder) (enc : Tokenizer) (dec : Detokenizer)
    (st : ServerState) (document_id filename : String)
    (extractResult : Except String String) (embedding_model : String)
    (persistFail : Option UploadFail) (h : stateAligned E st) :
    stateAligned E
      (upload_pdf E enc dec st document_id filename extractResult embedding_model
        persistFail).1 := by
  unfold upload_pdf
  by_cases hpdf : pyEndsWith (pyLower filename) ".pdf"
  · simp only [hpdf, not_true, if_false, ite_not]
    by_cases hm : pyStrip embedding_model = ""
    · simp only [hm, if_true]
      exact h
    · simp only [hm, if_false]
      match extractResult with
      | .error e => exact ⟨h.1, h.2⟩
      | .ok text =>
        by_cases ht : pyStrip text = ""
        · simp only [ht, if_true]
          exact ⟨h.1, h.2⟩
        · simp only [ht, if_false]
          by_cases hc : chunkTextStr enc dec text = []
          · simp only [hc, if_true]
            exact ⟨h.1, h.2⟩
          · simp only [hc, if_false]
            match persistFail with
            | some (.embed e) => exact ⟨h.1, h.2⟩
            | some (.writeMeta e) =>
              constructor
              · exact h.1
              · intro id' index' meta' hi' hm'
                rw [aLookup_aErase] at hm'
                by_cases hid : document_id = id'
                · have hMeq : (FPath.meta document_id = FPath.meta id') := by rw [hid]
                  rw [if_pos hMeq] at hm'
                  cases hm'
                · have hMne : ¬ (FPath.meta document_id = FPath.meta id') := by
                    intro hc2
                    exact hid (FPath.meta.injEq _ _ ▸ hc2)
                  have hIne : ¬ (FPath.index document_id = FPath.index id') := by
                    intro hc2
                    exact hid (FPath.index.injEq _ _ ▸ hc2)
                  rw [if_neg hMne] at hm'
                  rw [aLookup_aInsert, if_neg hIne] at hi'
                  exact h.2 id' index' meta' hi' hm'
            | none =>
              constructor
              · intro id' e' he'
                simp only [aLookup_aInsert] at he'
                by_cases hid : document_id = id'
                · rw [if_pos hid] at he'
                  cases he'
                  unfold entryAligned embed_texts
                  rfl
                · rw [if_neg hid] at he'
                  exact h.1 id' e' he'
              · intro id' index' meta' hi' hm'
                simp only [aLookup_aInsert] at hi' hm'
                by_cases hid : document_id = id'
                · have hIeq : (FPath.index document_id = FPath.index id') := by rw [hid]
                  have hMeq : (FPath.meta document_id = FPath.meta id') := by rw [hid]
                  rw [if_pos hIeq] at hi'
                  rw [if_pos hMeq] at hm'
                  cases hi'
                  cases hm'
                  exact ⟨chunkTextStr enc dec text, pyStrip embedding_model, rfl, rfl, rfl⟩
                · have hIne : ¬ (FPath.index document_id = FPath.index id') := by
                    intro hc2
                    exact hid (FPath.index.injEq _ _ ▸ hc2)
                  have hMne : ¬ (FPath.meta document_id = FPath.meta id') := by
                    intro hc2
                    exact hid (FPath.meta.injEq _ _ ▸ hc2)
                  rw [if_neg hIne] at hi'
                  rw [if_neg hMne] at hm'
                  exact h.2 id' index' meta' hi' hm'
  · simp only [hpdf, not_false_iff, if_true]
    exact h

theorem stateAligned_delete (E : Embedder) (st : ServerState) (id : String)
    (h : stateAligned E st) : stateAligned E (delete_document st id).1 := by
  unfold delete_document
  cases hmem : aLookup st.documents_store id with
  | none =>
    simp only [hmem]
    exact h
  | some doc =>
    simp only [hmem]
    cases hf : doc.file_path with
    | none =>
      cases hi : doc.index_path with
      | none =>
        cases hm2 : doc.meta_path with
        | none =>
          simp only [hf, hi, hm2]
          exact stateAligned_eraseStore E st id h
        | some p =>
          simp only [hf, hi, hm2]
          exact stateAligned_eraseStore E _ id (stateAligned_removeFile E _ p h)
      | some q =>
        cases hm2 : doc.meta_path with
        | none =>
          simp only [hf, hi, hm2]
          exact stateAligned_eraseStore E _ id (stateAligned_removeFile E _ q h)
        | some p =>
          simp only [hf, hi, hm2]
          exact stateAligned_eraseStore E _ id
            (stateAligned_removeFile E _ p (stateAligned_removeFile E _ q h))
    | some r =>
      cases hi : doc.index_path with
      | none =>
        cases hm2 : doc.meta_path with
        | none =>
          simp only [hf, hi, hm2]
          exact stateAligned_eraseStore E _ id (stateAligned_removeFile E _ r h)
        | some p =>
          simp only [hf, hi, hm2]
          exact stateAligned_eraseStore E _ id
            (stateAligned_removeFile E _ p (stateAligned_removeFile E _ r h))
      | some q =>
        cases hm2 : doc.meta_path with
        | none =>
          simp only [hf, hi, hm2]
          exact stateAligned_eraseStore E _ id
            (stateAligned_removeFile E _ q (stateAligned_removeFile E _ r h))
        | some p =>
          simp only [hf, hi, hm2]
          exact stateAligned_eraseStore E _ id
            (stateAligned_removeFile E _ p
              (stateAligned_removeFile E _ q (stateAligned_removeFile E _ r h)))

theorem loadStep_mem (st : ServerState) (id : String) (doc : DocEntry)
    (hmem : aLookup st.documents_store id = some doc) :
    loadStep st id = .ok (st, doc) := by
  unfold loadStep
  rw [hmem]

theorem loadStep_notfound (st : ServerState) (id : String)
    (hmem : aLookup st.documents_store id = none)
    (hdisk : aLookup st.disk_index (FPath.index id) = none ∨
      aLookup st.disk_meta (FPath.meta id) = none) :
    loadStep st id = .error ⟨404, "Document not found"⟩ := by
  unfold loadStep
  rw [hmem]
  rcases hdisk with h1 | h1
  · cases h2 : aLookup st.disk_meta (FPath.meta id) with
    | none => rw [h1]
    | some m2 => rw [h1]
  · cases h2 : aLookup st.disk_index (FPath.index id) with
    | none => rw [h1]
    | some i2 => rw [h1]

theorem loadStep_missing_model (st : ServerState) (id : String) (index : FaissIndex)
    (metadata : Meta) (hmem : aLookup st.documents_store id = none)
    (hidx : aLookup st.disk_index (FPath.index id) = some index)
    (hmeta : aLookup st.disk_meta (FPath.meta id) = some metadata)
    (hem : metadata.embedding_model = none ∨ metadata.embedding_model = some "") :
    loadStep st id =
      .error ⟨500, "Document missing embedding_model. Re-upload required."⟩ := by
  unfold loadStep
  simp only [hmem, hidx, hmeta]
  rcases hem with h | h
  · simp only [h]
  · simp [h]

theorem loadStep_reload (st : ServerState) (id : String) (index : FaissIndex)
    (metadata : Meta) (m : String) (hmem : aLookup st.documents_store id = none)
    (hidx : aLookup st.disk_index (FPath.index id) = some index)
    (hmeta : aLookup st.disk_meta (FPath.meta id) = some metadata)
    (hem : metadata.embedding_model = some m) (hm : m ≠ "") :
    loadStep st id =
      .ok ({ st with documents_store :=
          (aInsert id ⟨none, none, none, none, metadata.chunks.getD [], index, m⟩
            st.documents_store) },
        ⟨none, none, none, none, metadata.chunks.getD [], index, m⟩) := by
  unfold loadStep
  simp only [hmem, hidx, hmeta, hem]
  rw [if_neg hm]

theorem loadStep_aligned (E : Embedder) (st : ServerState) (id : String)
    (st' : ServerState) (entry : DocEntry) (h : stateAligned E st)
    (hload : loadStep st id = .ok (st', entry)) :
    stateAligned E st' ∧ entryAligned E entry := by
  cases hmem : aLookup st.documents_store id with
  | some doc =>
    rw [loadStep_mem st id doc hmem] at hload
    rw [Except.ok.injEq, Prod.mk.injEq] at hload
    obtain ⟨h1, h2⟩ := hload
    subst h1
    subst h2
    exact ⟨h, h.1 id doc hmem⟩
  | none =>
    cases hidx : aLookup st.disk_index (FPath.index id) with
    | none =>
      rw [loadStep_notfound st id hmem (Or.inl hidx)] at hload
      cases hload
    | some index =>
      cases hmeta : aLookup st.disk_meta (FPath.meta id) with
      | none =>
        rw [loadStep_notfound st id hmem (Or.inr hmeta)] at hload
        cases hload
      | some metadata =>
        obtain ⟨cs, m0, hcs, hm0, hrows⟩ := h.2 id index metadata hidx hmeta
        by_cases hm0e : m0 = ""
        · have hem : metadata.embedding_model = some "" := by rw [hm0, hm0e]
          rw [loadStep_missing_model st id index metadata hmem hidx hmeta (Or.inr hem)]
            at hload
          cases hload
        · rw [loadStep_reload st id index metadata m0 hmem hidx hmeta hm0 hm0e] at hload
          rw [Except.ok.injEq, Prod.mk.injEq] at hload
          obtain ⟨h1, h2⟩ := hload
          subst h1
          subst h2
          have hentry : entryAligned E
              ⟨none, none, none, none, metadata.chunks.getD [], index, m0⟩ := by
            unfold entryAligned
            simp only
            rw [hcs]
            simp only [Option.getD_some]
            exact hrows
          refine ⟨⟨?_, h.2⟩, hentry⟩
          intro id' e' he'
          rw [aLookup_aInsert] at he'
          by_cases hid : id = id'
          · rw [if_pos hid] at he'
            cases he'
            exact hentry
          · rw [if_neg hid] at he'
            exact h.1 id' e' he'

/-- The state after `chat` is either the incoming state or the state produced
by a successful reload step. -/
theorem chat_fst (E : Embedder) (callHF callOA : LlmCall) (st : ServerState)
    (req : ChatRequest) :
    (chat E callHF callOA st req).1 = st ∨
      ∃ doc, loadStep st req.document_id = .ok ((chat E callHF callOA st req).1, doc) := by
  unfold chat
  by_cases h1 : pyStrip req.query = ""
  · rw [if_pos h1]
    exact Or.inl rfl
  rw [if_neg h1]
  by_cases h2 : ¬ (req.provider = "huggingface" ∨ req.provider = "openai")
  · rw [if_pos h2]
    exact Or.inl rfl
  rw [if_neg h2]
  by_cases h3 : pyStrip req.llm_model = ""
  · rw [if_pos h3]
    exact Or.inl rfl
  rw [if_neg h3]
  by_cases h4 : pyStrip req.api_key = ""
  · rw [if_pos h4]
    exact Or.inl rfl
  rw [if_neg h4]
  cases hload : loadStep st req.document_id with
  | error err =>
    simp only [hload]
    exact Or.inl trivial
  | ok p =>
    obtain ⟨st', doc⟩ := p
    simp only [hload]
    cases hr : retrieve E req.query doc.index doc.chunks req.top_k doc.embedding_model with
    | error e =>
      simp only [hr]
      exact Or.inr ⟨doc, rfl⟩
    | ok rc =>
      simp only [hr]
      by_cases hrc : rc = []
      · rw [if_pos hrc]
        exact Or.inr ⟨doc, rfl⟩
      · rw [if_neg hrc]
        cases hg : generate_answer callHF callOA req.query rc req.provider req.llm_model
            req.api_key with
        | error e =>
          simp only [hg]
          exact Or.inr ⟨doc, rfl⟩
        | ok answer =>
          simp only [hg]
          exact Or.inr ⟨doc, rfl⟩

theorem stateAligned_chat (E : Embedder) (callHF callOA : LlmCall) (st : ServerState)
    (req : ChatRequest) (h : stateAligned E st) :
    stateAligned E (chat E callHF callOA st req).1 := by
  rcases chat_fst E callHF callOA st req with h1 | ⟨doc, hload⟩
  · rw [h1]
    exact h
  · exact (loadStep_aligned E st req.document_id _ doc h hload).1

/-! ## Claim theorems: Chunker -/

/-- C3 (counterexample): on the 5-token text with `maxTokens = 3`,
`overlapTokens = 1` (so `N > overlapTokens`), the claimed count
`ceil((N - overlapTokens) / (maxTokens - overlapTokens)) = 2` differs from
the 3 chunks the code produces: the loop keeps emitting windows until
`start >= N`, overshooting once a window already reaches the end. -/
theorem chunk_text_count_cex :
    (chunk_text [0, 1, 2, 3, 4] 3 1).map List.length = some 3 ∧
      specChunkCount 5 3 1 = 2 ∧ (3 : ℕ) ≠ 2 := by
  refine ⟨?_, ?_, ?_⟩ <;> decide

/-- C3 (amended): for `overlapTokens < maxTokens`, `chunk_text` on `N` tokens
returns exactly `ceil(N / (maxTokens - overlapTokens))` chunks (in
particular, zero chunks for empty input, not one). -/
theorem chunk_text_count (tokens : List ℕ) (maxChunk overlap : ℕ)
    (hmo : overlap < maxChunk) :
    ∃ l, chunk_text tokens maxChunk overlap = some l ∧
      l.length = cldiv tokens.length (maxChunk - overlap) := by
  refine ⟨_, chunk_text_eq tokens maxChunk overlap hmo, ?_⟩
  rw [List.length_map, List.length_range]

theorem chunk_text_count_witness :
    ∃ l, chunk_text [0, 1, 2, 3, 4] 3 1 = some l ∧
      l.length = cldiv ([0, 1, 2, 3, 4] : List ℕ).length (3 - 1) :=
  chunk_text_count [0, 1, 2, 3, 4] 3 1 (by decide)

set_option maxRecDepth 8000 in
/-- C4 (counterexample): with `overlapTokens = maxTokens = 5` on a one-token
text, no configuration error is raised; the loop simply never finishes
(still running after 500 iterations, and `chunk_text` finds no result within
its fuel). -/
theorem chunk_text_termination_cex :
    chunkLoopF [0] 5 5 500 0 = none ∧ chunk_text [0] 5 5 = none := by
  constructor
  · decide
  · decide

/-- C4 (amended): `chunk_text` terminates whenever
`overlapTokens < maxTokens`; when `overlapTokens >= maxTokens` and the text
has at least one token, the loop never terminates — for every fuel bound the
loop is still running — and no configuration error is raised. -/
theorem chunk_text_termination (tokens : List ℕ) (maxChunk overlap : ℕ) :
    (overlap < maxChunk → (chunk_text tokens maxChunk overlap).isSome = true) ∧
    (maxChunk ≤ overlap → tokens ≠ [] →
      ∀ fuel, chunkLoopF tokens maxChunk overlap fuel 0 = none) := by
  constructor
  · intro hmo
    obtain ⟨l, hl, _⟩ := chunk_text_count tokens maxChunk overlap hmo
    rw [hl]
    rfl
  · intro hmo hne fuel
    exact chunkLoopF_stuck tokens maxChunk overlap hmo hne fuel 0 le_rfl

theorem chunk_text_termination_witness :
    (chunk_text [5] 2 1).isSome = true ∧ chunkLoopF [5] 1 1 3 0 = none := by
  constructor
  · exact (chunk_text_termination [5] 2 1).1 (by decide)
  · exact (chunk_text_termination [5] 1 1).2 (by decide) (by decide) 3

/-- C9 (counterexample): with `maxTokens = 10 > overlapTokens = 8 ≥ 0` on a
7-token text the code emits 4 chunks; chunks 0 and 1 are consecutive, chunk 1
is not the final chunk, yet their windows share only 5 tokens, not 8 — and
chunk 0 has just 7 tokens, so an 8-token overlap with it is impossible under
any reading. -/
theorem chunk_overlap_cex :
    chunk_text [0, 1, 2, 3, 4, 5, 6] 10 8 =
      some [[0, 1, 2, 3, 4, 5, 6], [2, 3, 4, 5, 6], [4, 5, 6], [6]] ∧
    chunkOverlapAmt 7 10 8 0 = 5 ∧ (5 : ℕ) ≠ 8 ∧
    ([0, 1, 2, 3, 4, 5, 6] : List ℕ).length = 7 ∧ (7 : ℕ) < 8 := by
  refine ⟨?_, ?_, ?_, ?_, ?_⟩ <;> decide

/-- C9 (amended): for `maxTokens > overlapTokens ≥ 0` every emitted chunk has
at most `maxTokens` tokens; consecutive chunks `j`, `j+1` share exactly
`min overlapTokens (N - start(j+1))` trailing/leading tokens, which equals
`overlapTokens` exactly whenever chunk `j` has full length `maxTokens`
(truncated earlier chunks — possible before the final pair when
`overlapTokens` exceeds the stride — share fewer). -/
theorem chunk_text_window_overlap (tokens : List ℕ) (maxChunk overlap : ℕ)
    (hmo : overlap < maxChunk) :
    ∃ l, chunk_text tokens maxChunk overlap = some l ∧
      (∀ c ∈ l, c.length ≤ maxChunk) ∧
      (∀ j, j + 1 < l.length →
        chunkOverlapAmt tokens.length maxChunk overlap j =
          min overlap (tokens.length - chunkStart maxChunk overlap (j + 1)) ∧
        (l.getD j []).drop (maxChunk - overlap) =
          (l.getD (j + 1) []).take (chunkOverlapAmt tokens.length maxChunk overlap j) ∧
        (chunkStart maxChunk overlap j + maxChunk ≤ tokens.length →
          chunkOverlapAmt tokens.length maxChunk overlap j = overlap)) := by
  refine ⟨_, chunk_text_eq tokens maxChunk overlap hmo, ?_, ?_⟩
  · intro c hc
    obtain ⟨j, _, hcj⟩ := List.mem_map.mp hc
    rw [← hcj, length_chunkAt]
    unfold chunkEnd chunkStart
    omega
  · intro j hj
    rw [List.length_map, List.length_range] at hj
    have hgat : ∀ i, i < cldiv tokens.length (maxChunk - overlap) →
        ((List.range (cldiv tokens.length (maxChunk - overlap))).map
          (fun j' => chunkAt tokens maxChunk overlap j')).getD i [] =
          chunkAt tokens maxChunk overlap i := by
      intro i hi
      rw [List.getD_eq_getElem?_getD, List.getElem?_map, List.getElem?_range hi]
      rfl
    have hnext : chunkStart maxChunk overlap (j + 1) < tokens.length :=
      chunkStart_lt_of_lt_count tokens.length maxChunk overlap (j + 1) hmo hj
    refine ⟨chunkOverlapAmt_eq tokens.length maxChunk overlap j hmo hnext, ?_,
      chunkOverlapAmt_full tokens.length maxChunk overlap j hmo⟩
    rw [hgat j (by omega), hgat (j + 1) hj]
    exact chunk_consecutive_overlap tokens maxChunk overlap j hmo hnext

theorem chunk_text_window_overlap_witness :
    ∃ l, chunk_text [0, 1, 2, 3, 4] 3 1 = some l ∧
      (∀ c ∈ l, c.length ≤ 3) ∧
      (∀ j, j + 1 < l.length →
        chunkOverlapAmt ([0, 1, 2, 3, 4] : List ℕ).length 3 1 j =
          min 1 (([0, 1, 2, 3, 4] : List ℕ).length - chunkStart 3 1 (j + 1)) ∧
        (l.getD j []).drop (3 - 1) =
          (l.getD (j + 1) []).take (chunkOverlapAmt ([0, 1, 2, 3, 4] : List ℕ).length 3 1 j) ∧
        (chunkStart 3 1 j + 3 ≤ ([0, 1, 2, 3, 4] : List ℕ).length →
          chunkOverlapAmt ([0, 1, 2, 3, 4] : List ℕ).length 3 1 j = 1)) :=
  chunk_text_window_overlap [0, 1, 2, 3, 4] 3 1 (by decide)

/-! ## Claim theorems: Retriever, persistence, AnswerGenerator -/

/-- C5: when the chunk list is aligned with the index rows, `retrieve`
returns the chunks at the best-ranked rows: exactly `min top_k n` of them
(all `top_k` when `top_k ≤ n`, all `n` when `top_k > n`), with every
returned row a real row (`< n`), scores non-increasing along the output,
and every sentinel `-1` row filtered out before chunks are fetched. -/
theorem retrieve_topk_spec (E : Embedder) (query : String) (index : FaissIndex)
    (chunks : List String) (top_k : ℕ) (m : String) (hm : m ≠ "")
    (hlen : chunks.length = index.rows.length) :
    retrieve E query index chunks top_k m =
      .ok ((topRows index.rows (E m query) top_k).map (fun i => chunks.getD i "")) ∧
    (topRows index.rows (E m query) top_k).length = min top_k index.rows.length ∧
    (∀ i ∈ topRows index.rows (E m query) top_k, i < index.rows.length) ∧
    List.Pairwise (fun i j => dot (E m query) (index.rows.getD j []) ≤
      dot (E m query) (index.rows.getD i [])) (topRows index.rows (E m query) top_k) ∧
    (searchIdx index (E m query) top_k).filter (fun i => decide (i ≠ -1)) =
      (topRows index.rows (E m query) top_k).map (fun i => Int.ofNat i) :=
  ⟨retrieve_ok E query index chunks top_k m hm (le_of_eq hlen.symm),
    length_topRows _ _ _, fun i hi => mem_topRows _ _ _ i hi,
    topRows_sorted _ _ _, filter_searchIdx _ _ _⟩

theorem retrieve_topk_spec_witness :
    retrieve (fun _ _ => [1]) "q" ⟨1, [[1], [2]]⟩ ["a", "b"] 1 "m1" =
      .ok ((topRows [[1], [2]] [1] 1).map (fun i => (["a", "b"] : List String).getD i "")) ∧
    (topRows [[1], [2]] [1] 1).length = min 1 ([[1], [2]] : List Vec).length ∧
    (∀ i ∈ topRows [[1], [2]] [1] 1, i < ([[1], [2]] : List Vec).length) ∧
    List.Pairwise (fun i j => dot [1] (([[1], [2]] : List Vec).getD j []) ≤
      dot [1] (([[1], [2]] : List Vec).getD i [])) (topRows [[1], [2]] [1] 1) ∧
    (searchIdx ⟨1, [[1], [2]]⟩ [1] 1).filter (fun i => decide (i ≠ -1)) =
      (topRows [[1], [2]] [1] 1).map (fun i => Int.ofNat i) :=
  retrieve_topk_spec (fun _ _ => [1]) "q" ⟨1, [[1], [2]]⟩ ["a", "b"] 1 "m1"
    (by decide) (by decide)

/-- C6: persisting and reloading an index round-trips exactly, so search over
the reloaded index returns identical results (same rows, same order, same
scores) for every query and every `k`.  The persisted blob is modelled from
the spec (`faiss.write_index`/`read_index` is library code): dimension plus
row-major data. -/
theorem persist_load_roundtrip (index : FaissIndex) (hd : 0 < index.d)
    (hrows : ∀ r ∈ index.rows, r.length = index.d) :
    loadIndex (persistIndex index) = index ∧
    ∀ q k, searchIdx (loadIndex (persistIndex index)) q k = searchIdx index q k := by
  have h : loadIndex (persistIndex index) = index := by
    unfold loadIndex persistIndex
    rw [unflatten_flatten index.d hd index.rows hrows]
  exact ⟨h, fun q k => by rw [h]⟩

theorem persist_load_roundtrip_witness :
    loadIndex (persistIndex ⟨2, [[1, 0], [0, 1]]⟩) = ⟨2, [[1, 0], [0, 1]]⟩ ∧
    ∀ q k, searchIdx (loadIndex (persistIndex ⟨2, [[1, 0], [0, 1]]⟩)) q k =
      searchIdx ⟨2, [[1, 0], [0, 1]]⟩ q k :=
  persist_load_roundtrip ⟨2, [[1, 0], [0, 1]]⟩ (by decide) (by decide)

/-- C8: `generate_answer` rejects an unsupported provider tag, an empty model
id, or an empty API key with a `ValueError` whose result does not depend on
the remote back ends (no remote call is consulted); and when the selected
back end fails with message `e`, the result is the reclassification of `e`:
lowered text containing "rate limit" gives the fixed rate-limit message,
otherwise containing "model" gives "Model error: " with the original detail,
otherwise the generic wrapper around the cause. -/
theorem generate_answer_spec (callHF callOA : LlmCall) (query : String)
    (ctx : List String) (provider llm_model api_key : String) :
    (¬ (provider = "huggingface" ∨ provider = "openai") →
      generate_answer callHF callOA query ctx provider llm_model api_key =
        .error (.valueError "Provider must be 'huggingface' or 'openai'") ∧
      ∀ cHF cOA : LlmCall, generate_answer cHF cOA query ctx provider llm_model api_key =
        generate_answer callHF callOA query ctx provider llm_model api_key) ∧
    ((provider = "huggingface" ∨ provider = "openai") → llm_model = "" →
      generate_answer callHF callOA query ctx provider llm_model api_key =
        .error (.valueError "LLM model name is required") ∧
      ∀ cHF cOA : LlmCall, generate_answer cHF cOA query ctx provider llm_model api_key =
        generate_answer callHF callOA query ctx provider llm_model api_key) ∧
    ((provider = "huggingface" ∨ provider = "openai") → llm_model ≠ "" → api_key = "" →
      generate_answer callHF callOA query ctx provider llm_model api_key =
        .error (.valueError "API key is required") ∧
      ∀ cHF cOA : LlmCall, generate_answer cHF cOA query ctx provider llm_model api_key =
        generate_answer callHF callOA query ctx provider llm_model api_key) ∧
    (∀ e, (provider = "huggingface" ∨ provider = "openai") → llm_model ≠ "" →
      api_key ≠ "" →
      (if provider = "openai" then
        callOA system_prompt (user_prompt query ctx) llm_model api_key
      else
        callHF system_prompt (user_prompt query ctx) llm_model api_key) = .error e →
      generate_answer callHF callOA query ctx provider llm_model api_key =
        .error (classifyGenError e)) ∧
    (∀ e, containsStr (pyLower e) "rate limit" = true →
      classifyGenError e = .exception "Rate limit exceeded. Try again later.") ∧
    (∀ e, containsStr (pyLower e) "rate limit" = false →
      containsStr (pyLower e) "model" = true →
      classifyGenError e = .exception ("Model error: " ++ e)) ∧
    (∀ e, containsStr (pyLower e) "rate limit" = false →
      containsStr (pyLower e) "model" = false →
      classifyGenError e = .exception ("Failed to generate answer: " ++ e)) := by
  refine ⟨?_, ?_, ?_, ?_, ?_, ?_, ?_⟩
  · intro hp
    constructor
    · unfold generate_answer
      rw [if_pos hp]
    · intro cHF cOA
      unfold generate_answer
      rw [if_pos hp, if_pos hp]
  · intro hp hl
    constructor
    · unfold generate_answer
      rw [if_neg (not_not_intro hp), if_pos hl]
    · intro cHF cOA
      unfold generate_answer
      rw [if_neg (not_not_intro hp), if_pos hl, if_neg (not_not_intro hp), if_pos hl]
  · intro hp hl ha
    constructor
    · unfold generate_answer
      rw [if_neg (not_not_intro hp), if_neg hl, if_pos ha]
    · intro cHF cOA
      unfold generate_answer
      rw [if_neg (not_not_intro hp), if_neg hl, if_pos ha,
        if_neg (not_not_intro hp), if_neg hl, if_pos ha]
  · intro e hp hl ha hcall
    unfold generate_answer
    rw [if_neg (not_not_intro hp), if_neg hl, if_neg ha, hcall]
  · intro e hrl
    unfold classifyGenError
    rw [if_pos hrl]
  · intro e hrl hmo
    unfold classifyGenError
    rw [if_neg (by simp [hrl]), if_pos hmo]
  · intro e hrl hmo
    unfold classifyGenError
    rw [if_neg (by simp [hrl]), if_neg (by simp [hmo])]

theorem generate_answer_spec_witness :
    generate_answer (fun _ _ _ _ => .ok "a") (fun _ _ _ _ => .ok "a") "q" ["c"]
      "bogus" "m" "k" = .error (.valueError "Provider must be 'huggingface' or 'openai'") ∧
    classifyGenError "Rate Limit hit" = .exception "Rate limit exceeded. Try again later." ∧
    classifyGenError "bad Model id" = .exception ("Model error: " ++ "bad Model id") ∧
    classifyGenError "boom" = .exception ("Failed to generate answer: " ++ "boom") ∧
    generate_answer (fun _ _ _ _ => .error "boom") (fun _ _ _ _ => .error "boom") "q" ["c"]
      "huggingface" "m" "k" = .error (classifyGenError "boom") := by
  refine ⟨?_, ?_, ?_, ?_, ?_⟩
  · exact ((generate_answer_spec (fun _ _ _ _ => .ok "a") (fun _ _ _ _ => .ok "a")
      "q" ["c"] "bogus" "m" "k").1 (by decide)).1
  · exact (generate_answer_spec (fun _ _ _ _ => Except.ok "a") (fun _ _ _ _ => Except.ok "a")
      "q" ["c"] "bogus" "m" "k").2.2.2.2.1 "Rate Limit hit" (by decide)
  · exact (generate_answer_spec (fun _ _ _ _ => Except.ok "a") (fun _ _ _ _ => Except.ok "a")
      "q" ["c"] "bogus" "m" "k").2.2.2.2.2.1 "bad Model id" (by decide) (by decide)
  · exact (generate_answer_spec (fun _ _ _ _ => Except.ok "a") (fun _ _ _ _ => Except.ok "a")
      "q" ["c"] "bogus" "m" "k").2.2.2.2.2.2 "boom" (by decide) (by decide)
  · exact (generate_answer_spec (fun _ _ _ _ => .error "boom") (fun _ _ _ _ => .error "boom")
      "q" ["c"] "huggingface" "m" "k").2.2.2.1 "boom" (by decide) (by decide) (by decide) rfl

/-! ## Claim theorems: upload failure cleanup -/

/-- C2 (counterexample): an upload whose extraction succeeds but yields empty
text fails with the 400 "Could not extract text from PDF" error **after** the
file was saved, yet the saved file `uploads/d1.pdf` is still present in the
resulting state: the `except HTTPException: raise` arm re-raises before the
cleanup code, so the claimed removal does not happen (the registry stays
empty, as claimed). -/
theorem upload_cleanup_cex :
    upload_pdf (fun _ _ => [1]) (fun s => s.data.map Char.toNat) (fun _ => "x")
      ⟨[], [], [], []⟩ "d1" "doc.pdf" (.ok "") "m1" none =
      (⟨[], [FPath.upload "d1"], [], []⟩,
        .error ⟨400, "Could not extract text from PDF"⟩) ∧
    FPath.upload "d1" ∈ [FPath.upload "d1"] := by
  constructor
  · decide
  · decide

/-- C2 (amended): after the incoming file is saved, cleanup covers only the
saved PDF, and only for the unexpected processing failures: when extraction
raises, or the embed/index-build step raises before anything reaches
`indexes/`, the state returns exactly to the pre-upload state before the 500
error surfaces; when the metadata write raises after `faiss.write_index`
already succeeded, the saved PDF is removed but the freshly written index
artifact stays on disk (and no readable metadata record exists).  The two
validation failures — no extractable text, no chunks — are raised as
HTTPExceptions and surface with the saved file still on disk.  In every
failure case no document is registered in the in-memory registry. -/
theorem upload_cleanup (E : Embedder) (enc : Tokenizer) (dec : Detokenizer)
    (st : ServerState) (document_id filename embedding_model : String)
    (hpdf : pyEndsWith (pyLower filename) ".pdf" = true)
    (hm : pyStrip embedding_model ≠ "") :
    (∀ e persistFail,
      upload_pdf E enc dec st document_id filename (.error e) embedding_model persistFail =
        (st, .error ⟨500, "Failed to process PDF: " ++ e⟩)) ∧
    (∀ text persistFail, pyStrip text = "" →
      upload_pdf E enc dec st document_id filename (.ok text) embedding_model persistFail =
        ({ st with uploads := FPath.upload document_id :: st.uploads },
          .error ⟨400, "Could not extract text from PDF"⟩)) ∧
    (∀ text persistFail, pyStrip text ≠ "" → chunkTextStr enc dec text = [] →
      upload_pdf E enc dec st document_id filename (.ok text) embedding_model persistFail =
        ({ st with uploads := FPath.upload document_id :: st.uploads },
          .error ⟨400, "Could not create chunks from PDF"⟩)) ∧
    (∀ text e, pyStrip text ≠ "" → chunkTextStr enc dec text ≠ [] →
      upload_pdf E enc dec st document_id filename (.ok text) embedding_model
        (some (.embed e)) =
        (st, .error ⟨500, "Failed to process PDF: " ++ e⟩)) ∧
    (∀ text e, pyStrip text ≠ "" → chunkTextStr enc dec text ≠ [] →
      upload_pdf E enc dec st document_id filename (.ok text) embedding_model
        (some (.writeMeta e)) =
        ({ st with
            disk_index := aInsert (FPath.index document_id)
              ⟨(embed_texts E (chunkTextStr enc dec text) (pyStrip embedding_model)).headI.length,
                embed_texts E (chunkTextStr enc dec text) (pyStrip embedding_model)⟩
              st.disk_index,
            disk_meta := aErase (FPath.meta document_id) st.disk_meta },
          .error ⟨500, "Failed to process PDF: " ++ e⟩)) ∧
    (∀ extractResult persistFail err,
      (upload_pdf E enc dec st document_id filename extractResult embedding_model
        persistFail).2 = .error err →
      (upload_pdf E enc dec st document_id filename extractResult embedding_model
        persistFail).1.documents_store = st.documents_store) := by
  have h1 : ∀ e persistFail,
      upload_pdf E enc dec st document_id filename (.error e) embedding_model persistFail =
        (st, .error ⟨500, "Failed to process PDF: " ++ e⟩) := by
    intro e persistFail
    simp only [upload_pdf, if_neg (not_not_intro hpdf), if_neg hm]
    rw [List.erase_cons_head]
  have h2 : ∀ text persistFail, pyStrip text = "" →
      upload_pdf E enc dec st document_id filename (.ok text) embedding_model persistFail =
        ({ st with uploads := FPath.upload document_id :: st.uploads },
          .error ⟨400, "Could not extract text from PDF"⟩) := by
    intro text persistFail ht
    simp only [upload_pdf, if_neg (not_not_intro hpdf), if_neg hm, if_pos ht]
  have h3 : ∀ text persistFail, pyStrip text ≠ "" → chunkTextStr enc dec text = [] →
      upload_pdf E enc dec st document_id filename (.ok text) embedding_model persistFail =
        ({ st with uploads := FPath.upload document_id :: st.uploads },
          .error ⟨400, "Could not create chunks from PDF"⟩) := by
    intro text persistFail ht hc
    simp only [upload_pdf, if_neg (not_not_intro hpdf), if_neg hm, if_neg ht, if_pos hc]
  have h4 : ∀ text e, pyStrip text ≠ "" → chunkTextStr enc dec text ≠ [] →
      upload_pdf E enc dec st document_id filename (.ok text) embedding_model
        (some (.embed e)) =
        (st, .error ⟨500, "Failed to process PDF: " ++ e⟩) := by
    intro text e ht hc
    simp only [upload_pdf, if_neg (not_not_intro hpdf), if_neg hm, if_neg ht, if_neg hc]
    rw [List.erase_cons_head]
  have h5 : ∀ text e, pyStrip text ≠ "" → chunkTextStr enc dec text ≠ [] →
      upload_pdf E enc dec st document_id filename (.ok text) embedding_model
        (some (.writeMeta e)) =
        ({ st with
            disk_index := aInsert (FPath.index document_id)
              ⟨(embed_texts E (chunkTextStr enc dec text) (pyStrip embedding_model)).headI.length,
                embed_texts E (chunkTextStr enc dec text) (pyStrip embedding_model)⟩
              st.disk_index,
            disk_meta := aErase (FPath.meta document_id) st.disk_meta },
          .error ⟨500, "Failed to process PDF: " ++ e⟩) := by
    intro text e ht hc
    simp only [upload_pdf, if_neg (not_not_intro hpdf), if_neg hm, if_neg ht, if_neg hc]
    rw [List.erase_cons_head]
  have h6 : ∀ text, pyStrip text ≠ "" → chunkTextStr enc dec text ≠ [] →
      ∃ r, (upload_pdf E enc dec st document_id filename (.ok text) embedding_model
        none).2 = .ok r := by
    intro text ht hc
    simp only [upload_pdf, if_neg (not_not_intro hpdf), if_neg hm, if_neg ht, if_neg hc]
    exact ⟨_, rfl⟩
  refine ⟨h1, h2, h3, h4, h5, ?_⟩
  intro extractResult persistFail err herr
  cases extractResult with
  | error e =>
    rw [h1 e persistFail]
  | ok text =>
    by_cases ht : pyStrip text = ""
    · rw [h2 text persistFail ht]
    · by_cases hc : chunkTextStr enc dec text = []
      · rw [h3 text persistFail ht hc]
      · cases persistFail with
        | some f =>
          cases f with
          | embed e => rw [h4 text e ht hc]
          | writeMeta e => rw [h5 text e ht hc]
        | none =>
          obtain ⟨r, hr⟩ := h6 text ht hc
          rw [hr] at herr
          cases herr

theorem upload_cleanup_witness :
    pyEndsWith (pyLower "doc.pdf") ".pdf" = true ∧ pyStrip "m1" ≠ "" ∧
    (∀ e persistFail,
      upload_pdf (fun _ _ => [1]) (fun s => s.data.map Char.toNat) (fun _ => "x")
        ⟨[], [], [], []⟩ "d1" "doc.pdf" (.error e) "m1" persistFail =
        (⟨[], [], [], []⟩, .error ⟨500, "Failed to process PDF: " ++ e⟩)) ∧
    upload_pdf (fun _ _ => [1]) (fun s => s.data.map Char.toNat) (fun _ => "x")
      ⟨[], [], [], []⟩ "d1" "doc.pdf" (.ok "hi") "m1" (some (.writeMeta "disk full")) =
      (⟨[], [], [(FPath.index "d1", ⟨1, [[1]]⟩)], []⟩,
        .error ⟨500, "Failed to process PDF: " ++ "disk full"⟩) := by
  refine ⟨by decide, by decide, ?_, ?_⟩
  · exact (upload_cleanup (fun _ _ => [1]) (fun s => s.data.map Char.toNat) (fun _ => "x")
      ⟨[], [], [], []⟩ "d1" "doc.pdf" "m1" (by decide) (by decide)).1
  · exact (upload_cleanup (fun _ _ => [1]) (fun s => s.data.map Char.toNat) (fun _ => "x")
      ⟨[], [], [], []⟩ "d1" "doc.pdf" "m1" (by decide) (by decide)).2.2.2.2.1
      "hi" "disk full" (by decide) (by decide)

/-! ## Claim theorems: chat reload -/

theorem chat_valid_eq (E : Embedder) (callHF callOA : LlmCall) (st : ServerState)
    (req : ChatRequest) (hq : pyStrip req.query ≠ "")
    (hp : req.provider = "huggingface" ∨ req.provider = "openai")
    (hl : pyStrip req.llm_model ≠ "") (ha : pyStrip req.api_key ≠ "") :
    chat E callHF callOA st req =
      match loadStep st req.document_id with
      | .error err => (st, .error err)
      | .ok (st', doc) =>
        match retrieve E req.query doc.index doc.chunks req.top_k doc.embedding_model with
        | .error e => (st', .error ⟨500, "Failed to generate response: " ++ e.msg⟩)
        | .ok relevant_chunks =>
          if relevant_chunks = [] then
            (st', .error ⟨404, "No relevant content found"⟩)
          else
            match generate_answer callHF callOA req.query relevant_chunks req.provider
                req.llm_model req.api_key with
            | .error e => (st', .error ⟨500, "Failed to generate response: " ++ e.msg⟩)
            | .ok answer => (st', .ok ⟨answer, relevant_chunks, req.llm_model, req.provider⟩) := by
  unfold chat
  rw [if_neg hq, if_neg (not_not_intro hp), if_neg hl, if_neg ha]

/-- C7: for a validated chat request whose document id is absent from the
in-memory registry: (i) if either persisted artifact is missing, chat fails
with the 404 "Document not found" error, which is a different failure from
the 404 "No relevant content found" raised when retrieval succeeds but finds
nothing; (ii) if the artifacts exist but the metadata records no (or an
empty) embedding-model id, the reload fails with the 500 re-upload error;
(iii) if the metadata records a non-empty model id `m`, the registry after
`chat` holds an entry carrying exactly `m` (and the persisted chunks and
index); (iv) if moreover retrieval returns no chunks, chat fails with the
404 "No relevant content found" error on the reloaded state. -/
theorem chat_reload_spec (E : Embedder) (callHF callOA : LlmCall) (st : ServerState)
    (req : ChatRequest) (hq : pyStrip req.query ≠ "")
    (hp : req.provider = "huggingface" ∨ req.provider = "openai")
    (hl : pyStrip req.llm_model ≠ "") (ha : pyStrip req.api_key ≠ "")
    (hmem : aLookup st.documents_store req.document_id = none) :
    ((aLookup st.disk_index (FPath.index req.document_id) = none ∨
      aLookup st.disk_meta (FPath.meta req.document_id) = none) →
      chat E callHF callOA st req = (st, .error ⟨404, "Document not found"⟩) ∧
      (⟨404, "Document not found"⟩ : HTTPException) ≠
        ⟨404, "No relevant content found"⟩) ∧
    (∀ index metadata,
      aLookup st.disk_index (FPath.index req.document_id) = some index →
      aLookup st.disk_meta (FPath.meta req.document_id) = some metadata →
      (metadata.embedding_model = none ∨ metadata.embedding_model = some "") →
      chat E callHF callOA st req =
        (st, .error ⟨500, "Document missing embedding_model. Re-upload required."⟩)) ∧
    (∀ index metadata m,
      aLookup st.disk_index (FPath.index req.document_id) = some index →
      aLookup st.disk_meta (FPath.meta req.document_id) = some metadata →
      metadata.embedding_model = some m → m ≠ "" →
      aLookup ((chat E callHF callOA st req).1).documents_store req.document_id =
        some ⟨none, none, none, none, metadata.chunks.getD [], index, m⟩) ∧
    (∀ index metadata m,
      aLookup st.disk_index (FPath.index req.document_id) = some index →
      aLookup st.disk_meta (FPath.meta req.document_id) = some metadata →
      metadata.embedding_model = some m → m ≠ "" →
      retrieve E req.query index (metadata.chunks.getD []) req.top_k m = .ok [] →
      chat E callHF callOA st req =
        ({ st with documents_store :=
            (aInsert req.document_id
              ⟨none, none, none, none, metadata.chunks.getD [], index, m⟩
              st.documents_store) },
          .error ⟨404, "No relevant content found"⟩)) := by
  have hch := chat_valid_eq E callHF callOA st req hq hp hl ha
  refine ⟨?_, ?_, ?_, ?_⟩
  · intro hdisk
    constructor
    · rw [hch, loadStep_notfound st req.document_id hmem hdisk]
    · decide
  · intro index metadata hidx hmeta hem
    rw [hch, loadStep_missing_model st req.document_id index metadata hmem hidx hmeta hem]
  · intro index metadata m hidx hmeta hem hm0
    rw [hch]
    simp only [loadStep_reload st req.document_id index metadata m hmem hidx hmeta hem hm0]
    cases hr : retrieve E req.query index (metadata.chunks.getD []) req.top_k m with
    | error e =>
      simp only [hr]
      rw [aLookup_aInsert, if_pos rfl]
    | ok rc =>
      simp only [hr]
      by_cases hrc : rc = []
      · rw [if_pos hrc, aLookup_aInsert, if_pos rfl]
      · rw [if_neg hrc]
        cases hg : generate_answer callHF callOA req.query rc req.provider req.llm_model
            req.api_key with
        | error e =>
          simp only [hg]
          rw [aLookup_aInsert, if_pos rfl]
        | ok answer =>
          simp only [hg]
          rw [aLookup_aInsert, if_pos rfl]
  · intro index metadata m hidx hmeta hem hm0 hr0
    rw [hch]
    simp only [loadStep_reload st req.document_id index metadata m hmem hidx hmeta hem hm0]
    simp only [hr0]
    rw [if_pos trivial]

/-! ## Claim theorems: delete frame conditions and the global invariant -/

/-- C10: a registry entry created by the chat reload carries no
file_path/index_path/meta_path; deleting a document whose entry has no
recorded paths removes only the in-memory entry and leaves the saved
uploads, persisted indexes and metadata untouched; and deleting an id that
is not in the registry (even if its files are on disk) fails with 404 and
changes nothing. -/
theorem delete_frame_spec (st : ServerState) (id : String) :
    (∀ st' entry, aLookup st.documents_store id = none →
      loadStep st id = .ok (st', entry) →
      entry.file_path = none ∧ entry.index_path = none ∧ entry.meta_path = none) ∧
    (∀ entry, aLookup st.documents_store id = some entry →
      entry.file_path = none → entry.index_path = none → entry.meta_path = none →
      delete_document st id =
        ({ st with documents_store := aErase id st.documents_store },
          .ok "Document deleted")) ∧
    (aLookup st.documents_store id = none →
      delete_document st id = (st, .error ⟨404, "Document not found"⟩)) := by
  refine ⟨?_, ?_, ?_⟩
  · intro st' entry hmem hload
    cases hidx : aLookup st.disk_index (FPath.index id) with
    | none =>
      rw [loadStep_notfound st id hmem (Or.inl hidx)] at hload
      cases hload
    | some index =>
      cases hmeta : aLookup st.disk_meta (FPath.meta id) with
      | none =>
        rw [loadStep_notfound st id hmem (Or.inr hmeta)] at hload
        cases hload
      | some metadata =>
        cases hem : metadata.embedding_model with
        | none =>
          rw [loadStep_missing_model st id index metadata hmem hidx hmeta (Or.inl hem)]
            at hload
          cases hload
        | some m =>
          by_cases hm : m = ""
          · rw [loadStep_missing_model st id index metadata hmem hidx hmeta
              (Or.inr (by rw [hem, hm]))] at hload
            cases hload
          · rw [loadStep_reload st id index metadata m hmem hidx hmeta hem hm] at hload
            rw [Except.ok.injEq, Prod.mk.injEq] at hload
            obtain ⟨h1, h2⟩ := hload
            subst h2
            exact ⟨rfl, rfl, rfl⟩
  · intro entry hmem2 hf hi hm2
    unfold delete_document
    simp only [hmem2, hf, hi, hm2]
  · intro hmem
    unfold delete_document
    simp only [hmem]

theorem delete_frame_spec_witness :
    (∀ st' entry,
      aLookup ([("d", (⟨none, none, none, none, ["c"], ⟨1, [[1]]⟩, "m1"⟩ : DocEntry))] :
        List (String × DocEntry)) "d" = none →
      loadStep ⟨[("d", ⟨none, none, none, none, ["c"], ⟨1, [[1]]⟩, "m1"⟩)], [], [], []⟩ "d" =
        .ok (st', entry) →
      entry.file_path = none ∧ entry.index_path = none ∧ entry.meta_path = none) ∧
    (∀ entry,
      aLookup ([("d", (⟨none, none, none, none, ["c"], ⟨1, [[1]]⟩, "m1"⟩ : DocEntry))] :
        List (String × DocEntry)) "d" = some entry →
      entry.file_path = none → entry.index_path = none → entry.meta_path = none →
      delete_document ⟨[("d", ⟨none, none, none, none, ["c"], ⟨1, [[1]]⟩, "m1"⟩)], [], [], []⟩
        "d" =
        ({ (⟨[("d", ⟨none, none, none, none, ["c"], ⟨1, [[1]]⟩, "m1"⟩)], [], [], []⟩ :
            ServerState) with
          documents_store :=
            (aErase "d" [("d", ⟨none, none, none, none, ["c"], ⟨1, [[1]]⟩, "m1"⟩)]) },
          .ok "Document deleted")) ∧
    (aLookup ([("d", (⟨none, none, none, none, ["c"], ⟨1, [[1]]⟩, "m1"⟩ : DocEntry))] :
        List (String × DocEntry)) "d" = none →
      delete_document ⟨[("d", ⟨none, none, none, none, ["c"], ⟨1, [[1]]⟩, "m1"⟩)], [], [], []⟩
        "d" =
        (⟨[("d", ⟨none, none, none, none, ["c"], ⟨1, [[1]]⟩, "m1"⟩)], [], [], []⟩,
          .error ⟨404, "Document not found"⟩)) :=
  delete_frame_spec ⟨[("d", ⟨none, none, none, none, ["c"], ⟨1, [[1]]⟩, "m1"⟩)], [], [], []⟩ "d"

/-- C1: the chunk-to-row alignment (`stateAligned`: in-memory chunk lists,
persisted metadata arrays and vector-index rows all keep chunk `i` at row
`i`) is preserved by every operation — upload, chat (including its
chat-triggered reload), list and delete — and on any aligned in-memory entry
`retrieve` maps each returned row `i` back to chunk `i` of that entry, every
returned row being a real row below the chunk count. -/
theorem alignment_invariant (E : Embedder) (enc : Tokenizer) (dec : Detokenizer)
    (callHF callOA : LlmCall) (st : ServerState) (h : stateAligned E st) :
    (∀ document_id filename extractResult embedding_model embedFail,
      stateAligned E (upload_pdf E enc dec st document_id filename extractResult
        embedding_model embedFail).1) ∧
    (∀ req, stateAligned E (chat E callHF callOA st req).1) ∧
    stateAligned E (list_documents st).1 ∧
    (∀ id, stateAligned E (delete_document st id).1) ∧
    (∀ id e, aLookup st.documents_store id = some e → e.embedding_model ≠ "" →
      ∀ query k,
        retrieve E query e.index e.chunks k e.embedding_model =
          .ok ((topRows e.index.rows (E e.embedding_model query) k).map
            (fun i => e.chunks.getD i "")) ∧
        ∀ i ∈ topRows e.index.rows (E e.embedding_model query) k,
          i < e.chunks.length) := by
  refine ⟨fun document_id filename extractResult embedding_model embedFail =>
      stateAligned_upload E enc dec st document_id filename extractResult embedding_model
        embedFail h,
    fun req => stateAligned_chat E callHF callOA st req h,
    h,
    fun id => stateAligned_delete E st id h,
    ?_⟩
  intro id e hmem hm query k
  have hal := h.1 id e hmem
  unfold entryAligned at hal
  have hlen : e.index.rows.length ≤ e.chunks.length := by
    rw [hal, List.length_map]
  exact ⟨retrieve_ok E query e.index e.chunks k e.embedding_model hm hlen,
    fun i hi => lt_of_lt_of_le (mem_topRows _ _ _ i hi) hlen⟩

theorem alignment_invariant_witness :
    (∀ document_id filename extractResult embedding_model embedFail,
      stateAligned (fun _ _ => [])
        (upload_pdf (fun _ _ => []) (fun _ => []) (fun _ => "") ⟨[], [], [], []⟩
          document_id filename extractResult embedding_model embedFail).1) ∧
    (∀ req, stateAligned (fun _ _ => [])
      (chat (fun _ _ => []) (fun _ _ _ _ => Except.ok "a") (fun _ _ _ _ => Except.ok "a")
        ⟨[], [], [], []⟩ req).1) ∧
    stateAligned (fun _ _ => []) (list_documents ⟨[], [], [], []⟩).1 ∧
    (∀ id, stateAligned (fun _ _ => []) (delete_document ⟨[], [], [], []⟩ id).1) ∧
    (∀ id e, aLookup (([] : List (String × DocEntry))) id = some e →
      e.embedding_model ≠ "" →
      ∀ query k,
        retrieve (fun _ _ => []) query e.index e.chunks k e.embedding_model =
          .ok ((topRows e.index.rows ((fun (_ _ : String) => ([] : Vec)) e.embedding_model
            query) k).map (fun i => e.chunks.getD i "")) ∧
        ∀ i ∈ topRows e.index.rows ((fun (_ _ : String) => ([] : Vec)) e.embedding_model
            query) k, i < e.chunks.length) :=
  alignment_invariant (fun _ _ => []) (fun _ => []) (fun _ => "")
    (fun _ _ _ _ => Except.ok "a") (fun _ _ _ _ => Except.ok "a") ⟨[], [], [], []⟩
    ⟨fun id e he => by simp [aLookup] at he, fun id index meta hi hm => by
      simp [aLookup] at hi⟩

theorem chat_reload_spec_witness :
    ((aLookup ([(FPath.index "d", (⟨1, [[1]]⟩ : FaissIndex))] :
        List (FPath × FaissIndex)) (FPath.index "d") = none ∨
      aLookup ([(FPath.meta "d", (⟨some ["c"], some "m1"⟩ : Meta))] :
        List (FPath × Meta)) (FPath.meta "d") = none) →
      chat (fun _ _ => [1]) (fun _ _ _ _ => Except.ok "a") (fun _ _ _ _ => Except.ok "a")
        ⟨[], [], [(FPath.index "d", ⟨1, [[1]]⟩)], [(FPath.meta "d", ⟨some ["c"], some "m1"⟩)]⟩
        ⟨"d", "q", 5, "openai", "mm", "kk"⟩ =
        (⟨[], [], [(FPath.index "d", ⟨1, [[1]]⟩)],
          [(FPath.meta "d", ⟨some ["c"], some "m1"⟩)]⟩,
          .error ⟨404, "Document not found"⟩) ∧
      (⟨404, "Document not found"⟩ : HTTPException) ≠
        ⟨404, "No relevant content found"⟩) ∧
    (∀ index metadata,
      aLookup ([(FPath.index "d", (⟨1, [[1]]⟩ : FaissIndex))] :
        List (FPath × FaissIndex)) (FPath.index "d") = some index →
      aLookup ([(FPath.meta "d", (⟨some ["c"], some "m1"⟩ : Meta))] :
        List (FPath × Meta)) (FPath.meta "d") = some metadata →
      (metadata.embedding_model = none ∨ metadata.embedding_model = some "") →
      chat (fun _ _ => [1]) (fun _ _ _ _ => Except.ok "a") (fun _ _ _ _ => Except.ok "a")
        ⟨[], [], [(FPath.index "d", ⟨1, [[1]]⟩)], [(FPath.meta "d", ⟨some ["c"], some "m1"⟩)]⟩
        ⟨"d", "q", 5, "openai", "mm", "kk"⟩ =
        (⟨[], [], [(FPath.index "d", ⟨1, [[1]]⟩)],
          [(FPath.meta "d", ⟨some ["c"], some "m1"⟩)]⟩,
          .error ⟨500, "Document missing embedding_model. Re-upload required."⟩)) ∧
    (∀ index metadata m,
      aLookup ([(FPath.index "d", (⟨1, [[1]]⟩ : FaissIndex))] :
        List (FPath × FaissIndex)) (FPath.index "d") = some index →
      aLookup ([(FPath.meta "d", (⟨some ["c"], some "m1"⟩ : Meta))] :
        List (FPath × Meta)) (FPath.meta "d") = some metadata →
      metadata.embedding_model = some m → m ≠ "" →
      aLookup ((chat (fun _ _ => [1]) (fun _ _ _ _ => Except.ok "a")
          (fun _ _ _ _ => Except.ok "a")
          ⟨[], [], [(FPath.index "d", ⟨1, [[1]]⟩)],
            [(FPath.meta "d", ⟨some ["c"], some "m1"⟩)]⟩
          ⟨"d", "q", 5, "openai", "mm", "kk"⟩).1).documents_store "d" =
        some ⟨none, none, none, none, metadata.chunks.getD [], index, m⟩) ∧
    (∀ index metadata m,
      aLookup ([(FPath.index "d", (⟨1, [[1]]⟩ : FaissIndex))] :
        List (FPath × FaissIndex)) (FPath.index "d") = some index →
      aLookup ([(FPath.meta "d", (⟨some ["c"], some "m1"⟩ : Meta))] :
        List (FPath × Meta)) (FPath.meta "d") = some metadata →
      metadata.embedding_model = some m → m ≠ "" →
      retrieve (fun _ _ => [1]) "q" index (metadata.chunks.getD []) 5 m = .ok [] →
      chat (fun _ _ => [1]) (fun _ _ _ _ => Except.ok "a") (fun _ _ _ _ => Except.ok "a")
        ⟨[], [], [(FPath.index "d", ⟨1, [[1]]⟩)], [(FPath.meta "d", ⟨some ["c"], some "m1"⟩)]⟩
        ⟨"d", "q", 5, "openai", "mm", "kk"⟩ =
        ({ (⟨[], [], [(FPath.index "d", ⟨1, [[1]]⟩)],
            [(FPath.meta "d", ⟨some ["c"], some "m1"⟩)]⟩ : ServerState) with
          documents_store :=
            (aInsert "d" ⟨none, none, none, none, metadata.chunks.getD [], index, m⟩ []) },
          .error ⟨404, "No relevant content found"⟩)) :=
  chat_reload_spec (fun _ _ => [1]) (fun _ _ _ _ => Except.ok "a")
    (fun _ _ _ _ => Except.ok "a")
    ⟨[], [], [(FPath.index "d", ⟨1, [[1]]⟩)], [(FPath.meta "d", ⟨some ["c"], some "m1"⟩)]⟩
    ⟨"d", "q", 5, "openai", "mm", "kk"⟩ (by decide) (by decide) (by decide) (by decide)
    (by decide)
